import Mathlib

/-!
Verification of the content-type detection and conversion-dispatch core of
the markitdown-api service (`app/utils.py` and `app/main.py`).

The Python code is shallowly embedded:

* byte strings become `List Nat` (one entry per byte, values < 256);
* Python strings become Lean `String` (ASCII case mapping, as all literals
  involved are ASCII);
* Python `None`-able locals become `Option` values, with Python truthiness
  (`None` and the empty string / empty list are falsy) made explicit;
* calls into the Python standard library and third-party packages
  (`zipfile`, `mimetypes`, `urllib.parse`, `bytes.decode`, `trafilatura`,
  `chardet`, `readability`, `html2text`, `markitdown`, i.e. everything that
  is not source code of this repository) are modelled as an explicit
  environment of injectable collaborator functions (`SysEnv`), so every
  theorem quantifies over their behaviour;
* the only observable side effect of the core, creation and deletion of
  temporary files, is modelled by threading an explicit file-system state
  (`FsState`) recording which temporary files are live;
* Python exceptions become `Except` results; an uncaught exception in a
  collaborator propagates as an `Except.error`.
-/

/-! ## Python string primitives (ASCII) -/

/-- Python `str.lower()` restricted to ASCII case mapping. -/
def pyLower (s : String) : String := ⟨s.data.map Char.toLower⟩

/-- Characters stripped by Python `str.strip()` / `str.lstrip()` (ASCII whitespace). -/
def isWs (c : Char) : Bool :=
  c == ' ' || c == '\t' || c == '\n' || c == '\r' || c == '\x0B' || c == '\x0C'

/-- Python `str.lstrip()`. -/
def pyLstrip (s : String) : String := ⟨s.data.dropWhile isWs⟩

/-- Python `str.strip()`. -/
def pyStrip (s : String) : String :=
  ⟨((s.data.dropWhile isWs).reverse.dropWhile isWs).reverse⟩

/-- Python `str.lstrip('.')`: drop every leading dot. -/
def lstripDots (s : String) : String := ⟨s.data.dropWhile (· == '.')⟩

/-- Python `s.startswith(p)`. -/
def strStarts (s p : String) : Bool := p.data.isPrefixOf s.data

/-- Substring occurrence test on character lists (Python `pat in s`). -/
def hasSub (pat : List Char) : List Char → Bool
  | [] => pat.isEmpty
  | c :: cs => pat.isPrefixOf (c :: cs) || hasSub pat cs

/-- Python `pat in s` for strings. -/
def strHas (s pat : String) : Bool := hasSub pat.data s.data

/-- Python `c in s` for a single character. -/
def charIn (c : Char) (s : String) : Bool := s.data.contains c

/-- Python `s.split(sep)[0]` for a one-character separator: the part before the
first occurrence. -/
def beforeChar (c : Char) (s : String) : String := ⟨s.data.takeWhile (· != c)⟩

/-- Python `os.path.basename` (POSIX): the part after the last `/`. -/
def basename (p : String) : String :=
  ⟨p.data.foldl (fun acc c => if c == '/' then [] else acc ++ [c]) []⟩

/-- Python `os.path.splitext(p)[1]` for a path without separators: the suffix
from the last dot, unless every character before that dot is itself a dot
(so `.bashrc` has no extension). -/
def splitext_ext (p : String) : String :=
  let cs := p.data
  let r := cs.reverse.findIdx (· == '.')
  if r < cs.length then
    let i := cs.length - 1 - r
    if (cs.take i).all (· == '.') then "" else ⟨cs.drop i⟩
  else ""

/-! ## Python truthiness -/

/-- Truthiness of an optional string: `None` and `""` are falsy. -/
def truthyS : Option String → Bool
  | none => false
  | some s => !s.data.isEmpty

/-- Truthiness of an optional byte string: `None` and `b""` are falsy. -/
def truthyB : Option (List Nat) → Bool
  | none => false
  | some l => !l.isEmpty

/-- Truthiness of an optional header dict: `None` and `{}` are falsy
(the dict is modelled as an association list in insertion order). -/
def truthyH : Option (List (String × String)) → Bool
  | none => false
  | some h => !h.isEmpty

/-! ## The registry: `MIME_TYPE_MAPPINGS` and `SUPPORTED_EXTENSIONS`
(`app/utils.py`, lines 12-44). A Python dict with unique keys in insertion
order is modelled as an association list. -/

/-- The `MIME_TYPE_MAPPINGS` dict of `app/utils.py`, in insertion order. -/
def MIME_TYPE_MAPPINGS : List (String × String) :=
  [("text/html", ".html"),
   ("application/xhtml+xml", ".html"),
   ("application/xml", ".xml"),
   ("text/xml", ".xml"),
   ("text/plain", ".txt"),
   ("text/markdown", ".md"),
   ("text/x-markdown", ".md"),
   ("text/csv", ".csv"),
   ("text/comma-separated-values", ".csv"),
   ("application/pdf", ".pdf"),
   ("application/msword", ".doc"),
   ("application/vnd.openxmlformats-officedocument.wordprocessingml.document", ".docx"),
   ("application/vnd.ms-excel", ".xls"),
   ("application/vnd.openxmlformats-officedocument.spreadsheetml.sheet", ".xlsx"),
   ("application/vnd.ms-powerpoint", ".ppt"),
   ("application/vnd.openxmlformats-officedocument.presentationml.presentation", ".pptx"),
   ("application/json", ".json"),
   ("image/jpeg", ".jpg"),
   ("image/png", ".png"),
   ("image/gif", ".gif"),
   ("image/webp", ".webp")]

/-- `SUPPORTED_EXTENSIONS = {ext.lower() for ext in MIME_TYPE_MAPPINGS.values()}`;
the set is modelled as the value list (membership is what matters). -/
def supportedExtensions : List String :=
  MIME_TYPE_MAPPINGS.map (fun p => pyLower p.2)

/-- `ext in SUPPORTED_EXTENSIONS`. -/
def supportedHas (e : String) : Bool := supportedExtensions.contains e

/-- Python `dict.get k` on an association list (keys are unique). -/
def mapGet (m : List (String × String)) (k : String) : Option String :=
  (m.find? (fun kv => kv.1 == k)).map Prod.snd

/-- `next((k for k, v in m.items() if v == e), None)`: first key whose value is `e`. -/
def revGet (m : List (String × String)) (e : String) : Option String :=
  (m.find? (fun kv => kv.2 == e)).map Prod.fst

/-- `next((v for k, v in headers.items() if k.lower() == 'content-type'), None)`. -/
def hdrLookup (h : List (String × String)) : Option String :=
  (h.find? (fun kv => pyLower kv.1 == "content-type")).map Prod.snd

/-- `is_supported_filetype` of `app/utils.py` (lines 199-209):
`ext.lower().strip().lstrip('.') in {e.lstrip('.') for e in SUPPORTED_EXTENSIONS}`. -/
def is_supported_filetype (ext : String) : Bool :=
  (supportedExtensions.map lstripDots).contains (lstripDots (pyStrip (pyLower ext)))

/-! ## The collaborator environment and file-system state -/

/-- Result of `zipfile.ZipFile(path).namelist()`: the entry names, a
`zipfile.BadZipFile` exception, or some other exception (message carried). -/
inductive ZipOutcome where
  | names (ns : List String)
  | badZip
  | err (e : String)
  deriving DecidableEq

/-- External collaborators (Python stdlib and third-party packages). Every
theorem below is universally quantified over this environment. -/
structure SysEnv where
  /-- `bytes.decode(encoding)` (strict): decoded text or a `UnicodeDecodeError`. -/
  pyDecode : String → List Nat → Except String String
  /-- `bytes.decode('utf-8', errors='ignore')`: total. -/
  pyDecodeIgn : List Nat → String
  /-- `zipfile.ZipFile(path).namelist()` on a file holding the given bytes. -/
  zipNamelist : List Nat → ZipOutcome
  /-- `mimetypes.guess_type(name)[0]`. -/
  guessType : String → Option String
  /-- `mimetypes.guess_extension(mime)`. -/
  guessExtension : String → Option String
  /-- `urllib.parse.urlparse(url).path`. -/
  urlPath : String → String
  /-- `trafilatura.extract(text, ...)`: `None` or a string, or an exception. -/
  trafExtract : String → Except String (Option String)
  /-- `chardet.detect(content)['encoding']`. -/
  chardetEnc : List Nat → Option String
  /-- `readability.Document(text)`, then `.title()` and `.summary(html_partial=True)`. -/
  readability : String → Except String (String × String)
  /-- `html2text.HTML2Text().handle(article)` (links/images/tables preserved). -/
  h2tHandle : String → Except String String
  /-- `markitdown.convert(path)` on a temporary file holding the given bytes,
  whose name ends in the given suffix; yields `.text_content`. -/
  mdConvert : List Nat → String → Except String String

/-- File-system state: identifiers of the temporary files currently on disk,
plus a counter supplying fresh names. -/
structure FsState where
  nextId : Nat
  live : List Nat
  deriving DecidableEq

/-- `tempfile.NamedTemporaryFile(delete=False)` plus the write: creates a fresh
live file and returns its identifier. -/
def createTemp (s : FsState) : Nat × FsState :=
  (s.nextId, ⟨s.nextId + 1, s.nextId :: s.live⟩)

/-- `os.unlink(path)` inside the guarded cleanup block (`if temp_path and
os.path.exists(temp_path): try: os.unlink(temp_path) ...`): removes the file. -/
def removeTemp (tid : Nat) (s : FsState) : FsState :=
  ⟨s.nextId, s.live.erase tid⟩

/-! ## `safe_decode` (`app/utils.py`, lines 50-70) -/

/-- `safe_decode(content, size)`: try utf-8, utf-16, ascii, iso-8859-1 in order
on the truncated sample, falling back to utf-8 with invalid bytes ignored. -/
def safe_decode (env : SysEnv) (content : List Nat) (size : Nat) : String :=
  let sample := content.take size
  match env.pyDecode "utf-8" sample with
  | .ok r => r
  | .error _ =>
  match env.pyDecode "utf-16" sample with
  | .ok r => r
  | .error _ =>
  match env.pyDecode "ascii" sample with
  | .ok r => r
  | .error _ =>
  match env.pyDecode "iso-8859-1" sample with
  | .ok r => r
  | .error _ => env.pyDecodeIgn sample

/-! ## The content sniffer (`app/utils.py`, lines 116-182) -/

/-- The textual heuristics of `detect_content_type` (the `else` arm of the
magic-number chain, lines 156-175): json, then html/xml, then csv. -/
def textSniff (env : SysEnv) (sample : List Nat) : Option (String × String) :=
  let t := safe_decode env sample 1024
  let tl := pyLower t
  if strStarts (pyLstrip t) "\x7b" || strStarts (pyLstrip t) "[" then
    some ("application/json", ".json")
  else if strStarts (pyLstrip t) "<" then
    if strHas tl "<html" || strHas tl "<!doctype html" then
      some ("text/html", ".html")
    else
      some ("text/xml", ".xml")
  else if charIn ',' t || charIn ';' t then
    if !(strStarts (pyLstrip t) "<") then some ("text/csv", ".csv") else none
  else none

/-- The content-sniffing block of `detect_content_type` (lines 116-182): the
`if/elif` chain over the first bytes, with the ZIP-container classification for
`PK`-prefixed content (writing the sample to a scratch temporary file, deleted
in the `finally` block on every exit path) and the textual heuristics in the
final `else` arm. Returns the `(content_type, extension)` pair the block
assigns, `none` when it assigns nothing, or propagates an exception raised by
the zip inspection (only `BadZipFile` is caught by the block itself). -/
def sniffStep (env : SysEnv) (sample : List Nat) (s : FsState) :
    Except String (Option (String × String)) × FsState :=
  let magic := sample.take 8
  if [0x25, 0x50, 0x44, 0x46].isPrefixOf magic then
    (.ok (some ("application/pdf", ".pdf")), s)
  else if [0x89, 0x50, 0x4E, 0x47, 0x0D, 0x0A, 0x1A, 0x0A].isPrefixOf magic then
    (.ok (some ("image/png", ".png")), s)
  else if [0xFF, 0xD8, 0xFF].isPrefixOf magic then
    (.ok (some ("image/jpeg", ".jpg")), s)
  else if [0x50, 0x4B].isPrefixOf sample then
    let c := createTemp s
    match env.zipNamelist sample with
    | .names ns =>
      let r :=
        if ns.any (fun n => strStarts n "word/") then
          some ("application/vnd.openxmlformats-officedocument.wordprocessingml.document",
                ".docx")
        else if ns.any (fun n => strStarts n "xl/") then
          some ("application/vnd.openxmlformats-officedocument.spreadsheetml.sheet", ".xlsx")
        else if ns.any (fun n => strStarts n "ppt/") then
          some ("application/vnd.openxmlformats-officedocument.presentationml.presentation",
                ".pptx")
        else none
      (.ok r, removeTemp c.1 c.2)
    | .badZip => (.ok none, removeTemp c.1 c.2)
    | .err e => (.error e, removeTemp c.1 c.2)
  else
    (.ok (textSniff env sample), s)

/-! ## The content-type resolver `detect_content_type`
(`app/utils.py`, lines 73-196) -/

/-- Header step (lines 94-102): normalize the declared `Content-Type`
(case-insensitive header lookup, parameters after `;` stripped, lowercased)
and look up its extension in the registry. -/
def headerStep (headers : Option (List (String × String))) :
    Option String × Option String :=
  if truthyH headers then
    match hdrLookup (headers.getD []) with
    | some v =>
      if !v.data.isEmpty then
        let ct := pyLower (beforeChar ';' v)
        (some ct, mapGet MIME_TYPE_MAPPINGS ct)
      else (none, none)
    | none => (none, none)
  else (none, none)

/-- URL step (lines 104-114): if no extension yet and a URL is present, take
the path's final extension; accept it only when supported and back-fill the
MIME via reverse registry lookup when the MIME is still unknown. -/
def urlStep (env : SysEnv) (url : Option String) (ct ext : Option String) :
    Option String × Option String :=
  if !truthyS ext && truthyS url then
    let path := basename (beforeChar '?' (env.urlPath (url.getD "")))
    let ue := pyLower (splitext_ext path)
    if supportedHas ue then
      (if !truthyS ct then revGet MIME_TYPE_MAPPINGS ue else ct, some ue)
    else (ct, ext)
  else (ct, ext)

/-- Cross-fill step (lines 184-190): derive the missing field via the
`mimetypes` module, accepting a derived extension only when supported. -/
def crossFill (env : SysEnv) (ct ext : Option String) :
    Option String × Option String :=
  if truthyS ext && !truthyS ct then
    (env.guessType ("file" ++ ext.getD ""), ext)
  else if truthyS ct && !truthyS ext then
    match env.guessExtension (ct.getD "") with
    | some x => if supportedHas x then (ct, some x) else (ct, ext)
    | none => (ct, ext)
  else (ct, ext)

/-- Default step (lines 192-196): fall back to `application/octet-stream` when
the MIME is still falsy, and return `extension or ''`. -/
def defaultFill (ct ext : Option String) : String × String :=
  (if truthyS ct then ct.getD "" else "application/octet-stream", ext.getD "")

/-- `detect_content_type(content, headers, url, sample_size)` of
`app/utils.py` (lines 73-196), with the collaborator environment and the
file-system state explicit. An exception escaping the zip inspection
propagates (after the `finally` cleanup) as an `Except.error`. -/
def detect_content_type (env : SysEnv) (content : Option (List Nat))
    (headers : Option (List (String × String))) (url : Option String)
    (sample_size : Nat) (s : FsState) :
    Except String (String × String) × FsState :=
  let he := headerStep headers
  let ue := urlStep env url he.1 he.2
  if truthyB content && (!truthyS ue.2 || !truthyS ue.1) then
    match sniffStep env ((content.getD []).take sample_size) s with
    | (.error e, s2) => (.error e, s2)
    | (.ok r, s2) =>
      let p := match r with
        | some q => (some q.1, some q.2)
        | none => ue
      let cf := crossFill env p.1 p.2
      (.ok (defaultFill cf.1 cf.2), s2)
  else
    let cf := crossFill env ue.1 ue.2
    (.ok (defaultFill cf.1 cf.2), s)

/-! ## The conversion dispatcher (`app/main.py`, lines 223-310) -/

/-- The result of one successful `/convert` call: the fields of
`EnhancedConversionResult`/`ConversionMetadata` that the core determines
(the wall-clock `processing_time` and the `original_url` echo are ingress
concerns and not modelled). -/
structure Outcome where
  result : String
  content_type : String
  file_size : Nat
  conversion_method : String
  deriving DecidableEq

/-- The HTML extraction stages of `convert` (`app/main.py`, lines 229-258, the
body of the inner `try`): trafilatura on the utf-8 decode of the content; when
it yields a falsy result, the readability fallback (chardet encoding
detection, decode, `Document` title/summary, html2text), prepending
`# {title}\n\n` when the title is truthy. Returns `(result, conversion_method)`
or the first exception raised inside either stage. -/
def htmlExtract (env : SysEnv) (content : List Nat) :
    Except String (String × String) :=
  match env.pyDecode "utf-8" content with
  | .error e => .error e
  | .ok txt =>
    match env.trafExtract txt with
    | .error e => .error e
    | .ok extracted =>
      if truthyS extracted then
        .ok (extracted.getD "", "trafilatura")
      else
        let enc :=
          if truthyS (env.chardetEnc content) then (env.chardetEnc content).getD ""
          else "utf-8"
        match env.pyDecode enc content with
        | .error e => .error e
        | .ok txt2 =>
          match env.readability txt2 with
          | .error e => .error e
          | .ok ta =>
            match env.h2tHandle ta.2 with
            | .error e => .error e
            | .ok md =>
              .ok ((if ta.1.data.isEmpty then "" else "# " ++ ta.1 ++ "\n\n") ++ md,
                   "readability")

/-- The dispatch section of the `/convert` endpoint (`app/main.py`, lines
223-310), applied to the content and the resolved `(content_type, file_ext)`
pair. Errors are the `HTTPException`s the endpoint raises: `(status, detail)`.
Any exception inside the HTML stages becomes a single 500 `Failed to extract
web content` error (lines 260-264); an unsupported non-HTML type is rejected
with a 400 before any converter runs (lines 266-272); the generic branch
writes the content to a temporary file with the extension as suffix, runs
markitdown, and removes the file in the `finally` block on every exit path
(lines 274-292); a converter exception is re-raised by the outer handler as a
500 with the exception text (lines 307-310). -/
def convert (env : SysEnv) (content : List Nat)
    (content_type file_ext : String) (s : FsState) :
    Except (Nat × String) Outcome × FsState :=
  if strStarts content_type "text/html" then
    match htmlExtract env content with
    | .error e => (.error (500, "Failed to extract web content: " ++ e), s)
    | .ok rm => (.ok ⟨rm.1, content_type, content.length, rm.2⟩, s)
  else
    if file_ext.data.isEmpty || !is_supported_filetype file_ext then
      (.error (400, "Unsupported or invalid file format: " ++ content_type), s)
    else
      let c := createTemp s
      match env.mdConvert content file_ext with
      | .ok txt => (.ok ⟨txt, content_type, content.length, "markitdown"⟩, removeTemp c.1 c.2)
      | .error e => (.error (500, e), removeTemp c.1 c.2)

/-! ## Supporting lemmas -/

theorem truthyS_some_ne {x : String} (h : truthyS (some x) = true) : x ≠ "" := by
  intro hc; rw [hc] at h; exact absurd h (by decide)

/-- Every extension an execution can assign is a member of the supported set. -/
def extOkO (e : Option String) : Prop :=
  ∀ x, e = some x → supportedHas x = true

theorem mapGet_supported {k v : String}
    (h : mapGet MIME_TYPE_MAPPINGS k = some v) : supportedHas v = true := by
  unfold mapGet at h
  rcases Option.map_eq_some'.mp h with ⟨p, hp, hv⟩
  have hm := List.mem_of_find?_eq_some hp
  have hall : ∀ q ∈ MIME_TYPE_MAPPINGS, supportedHas q.2 = true := by decide
  rw [← hv]; exact hall p hm

theorem headerStep_ext (headers : Option (List (String × String))) :
    extOkO (headerStep headers).2 := by
  intro x hx
  simp only [headerStep] at hx
  split at hx
  · split at hx
    · split at hx
      · exact mapGet_supported (by simpa using hx)
      · simp at hx
    · simp at hx
  · simp at hx

theorem urlStep_ext (env : SysEnv) (url ct ext) (h : extOkO ext) :
    extOkO (urlStep env url ct ext).2 := by
  intro x hx
  simp only [urlStep] at hx
  split at hx
  · split at hx
    · rename_i hs
      simp at hx
      rw [← hx]; exact hs
    · exact h x (by simpa using hx)
  · exact h x (by simpa using hx)

theorem crossFill_ext (env : SysEnv) (ct ext) (h : extOkO ext) :
    extOkO (crossFill env ct ext).2 := by
  intro x hx
  simp only [crossFill] at hx
  split at hx
  · exact h x (by simpa using hx)
  · split at hx
    · split at hx
      · split at hx
        · rename_i hs
          simp at hx
          rw [← hx]; exact hs
        · exact h x (by simpa using hx)
      · exact h x (by simpa using hx)
    · exact h x (by simpa using hx)

theorem defaultFill_spec (ct ext : Option String) (h : extOkO ext) :
    (defaultFill ct ext).1 ≠ ""
    ∧ ((defaultFill ct ext).2 = "" ∨ supportedHas (defaultFill ct ext).2 = true) := by
  constructor
  · simp only [defaultFill]
    split
    · rename_i ht
      cases ct with
      | none => exact absurd ht (by decide)
      | some x => simpa using truthyS_some_ne ht
    · decide
  · simp only [defaultFill]
    cases ext with
    | none => left; rfl
    | some x => right; exact h x rfl


theorem textSniff_cases (env : SysEnv) (sample : List Nat) :
    textSniff env sample = none
    ∨ textSniff env sample = some ("application/json", ".json")
    ∨ textSniff env sample = some ("text/html", ".html")
    ∨ textSniff env sample = some ("text/xml", ".xml")
    ∨ textSniff env sample = some ("text/csv", ".csv") := by
  simp only [textSniff]
  split
  · right; left; rfl
  · split
    · split
      · right; right; left; rfl
      · right; right; right; left; rfl
    · split
      · split
        · right; right; right; right; rfl
        · left; rfl
      · left; rfl

theorem textSniff_some {env : SysEnv} {sample : List Nat} {m e : String}
    (h : textSniff env sample = some (m, e)) :
    m ≠ "" ∧ e ≠ "" ∧ supportedHas e = true := by
  rcases textSniff_cases env sample with hc | hc | hc | hc | hc <;> rw [hc] at h
  · exact absurd h (by simp)
  all_goals simp at h
  all_goals rw [← h.1, ← h.2]
  all_goals exact ⟨by decide, by decide, by decide⟩

theorem sniffStep_ok_some {env : SysEnv} {sample : List Nat} {s : FsState}
    {m e : String} {s2 : FsState}
    (h : sniffStep env sample s = (.ok (some (m, e)), s2)) :
    m ≠ "" ∧ e ≠ "" ∧ supportedHas e = true := by
  simp only [sniffStep] at h
  split at h
  · simp at h; rw [← h.1.1, ← h.1.2]; exact ⟨by decide, by decide, by decide⟩
  · split at h
    · simp at h; rw [← h.1.1, ← h.1.2]; exact ⟨by decide, by decide, by decide⟩
    · split at h
      · simp at h; rw [← h.1.1, ← h.1.2]; exact ⟨by decide, by decide, by decide⟩
      · split at h
        · split at h
          · split at h
            · simp at h; rw [← h.1.1, ← h.1.2]
              exact ⟨by decide, by decide, by decide⟩
            · split at h
              · simp at h; rw [← h.1.1, ← h.1.2]
                exact ⟨by decide, by decide, by decide⟩
              · split at h
                · simp at h; rw [← h.1.1, ← h.1.2]
                  exact ⟨by decide, by decide, by decide⟩
                · simp at h
          · simp at h
          · simp at h
        · have h2 := h
          simp at h2
          exact textSniff_some h2.1

theorem sniffStep_live (env : SysEnv) (sample : List Nat) (s : FsState) :
    ((sniffStep env sample s).2).live = s.live := by
  simp only [sniffStep]
  split
  · rfl
  · split
    · rfl
    · split
      · rfl
      · split
        · split
          · simp [createTemp, removeTemp]
          · simp [createTemp, removeTemp]
          · simp [createTemp, removeTemp]
        · rfl

/-! ## Claim theorems -/

/-- Claim C7 (confirmed): every temporary file created during one operation is
deleted before that operation returns, on every exit path (success, converter
failure, or exception): the scratch file of the ZIP sniff inside
`detect_content_type` and the scoped file of the generic-document branch of
`convert` both leave the set of live temporary files unchanged. (The `unlink`
call itself is modelled as effective; the code ignores an `unlink` failure,
an OS-level fault outside this embedding.) -/
theorem C7_temp_cleanup (env : SysEnv) (content : Option (List Nat))
    (headers : Option (List (String × String))) (url : Option String)
    (sample_size : Nat) (bs : List Nat) (ct ext : String) (s : FsState) :
    ((detect_content_type env content headers url sample_size s).2).live = s.live
    ∧ ((convert env bs ct ext s).2).live = s.live := by
  constructor
  · simp only [detect_content_type]
    split
    · split
      · rename_i heq
        have hl := sniffStep_live env ((content.getD []).take sample_size) s
        rw [heq] at hl
        exact hl
      · rename_i heq
        have hl := sniffStep_live env ((content.getD []).take sample_size) s
        rw [heq] at hl
        exact hl
    · rfl
  · simp only [convert]
    split
    · split <;> rfl
    · split
      · rfl
      · split
        · simp [createTemp, removeTemp]
        · simp [createTemp, removeTemp]

/-- Claim C8 (confirmed): `detect_content_type` always returns a pair whose
MIME component is non-empty (defaulting to `application/octet-stream`) and
whose extension component is either the empty string or a member of the
supported-extension set. -/
theorem C8_resolved_invariant (env : SysEnv) (content : Option (List Nat))
    (headers : Option (List (String × String))) (url : Option String)
    (sample_size : Nat) (s : FsState) {pr : String × String} {s2 : FsState}
    (h : detect_content_type env content headers url sample_size s = (.ok pr, s2)) :
    pr.1 ≠ "" ∧ (pr.2 = "" ∨ supportedHas pr.2 = true) := by
  have hh := headerStep_ext headers
  have hu := urlStep_ext env url (headerStep headers).1 (headerStep headers).2 hh
  simp only [detect_content_type] at h
  split at h
  · rcases hress : sniffStep env ((content.getD []).take sample_size) s with ⟨res, s3⟩
    rw [hress] at h
    cases res with
    | error e => simp at h
    | ok r =>
      cases r with
      | none =>
        simp at h
        rw [← h.1]
        exact defaultFill_spec _ _ (crossFill_ext env _ _ hu)
      | some q =>
        simp at h
        have hs := @sniffStep_ok_some env ((content.getD []).take sample_size) s
          q.1 q.2 s3 hress
        have he3 : extOkO (some q.2) := by
          intro x hx
          rw [← Option.some.inj hx]
          exact hs.2.2
        rw [← h.1]
        exact defaultFill_spec _ _ (crossFill_ext env _ _ he3)
  · simp at h
    rw [← h.1]
    exact defaultFill_spec _ _ (crossFill_ext env _ _ hu)

/-! ## A concrete collaborator environment for witnesses and counterexamples.
The decoder decodes each byte as one character (latin-1 style), the zip
library reports every input as corrupt, and the remaining collaborators
return fixed simple values. -/

/-- Concrete environment used to instantiate the universally quantified
theorems at closed inputs. -/
def env0 : SysEnv where
  pyDecode := fun _ bs => .ok ⟨bs.map Char.ofNat⟩
  pyDecodeIgn := fun bs => ⟨bs.map Char.ofNat⟩
  zipNamelist := fun _ => .badZip
  guessType := fun _ => none
  guessExtension := fun _ => none
  urlPath := fun u => u
  trafExtract := fun _ => .ok none
  chardetEnc := fun _ => none
  readability := fun _ => .ok ("", "")
  h2tHandle := fun _ => .ok ""
  mdConvert := fun _ _ => .ok "MD"

/-- The bytes of `%PDF-1.4`. -/
def pdfBytes : List Nat := [0x25, 0x50, 0x44, 0x46, 0x2D, 0x31, 0x2E, 0x34]

/-- The bytes of `PK,,,`: a `PK`-prefixed stream that is not a zip archive,
whose decoded text contains commas (the CSV heuristic would match it). -/
def pkBytes : List Nat := [0x50, 0x4B, 0x2C, 0x2C, 0x2C]

theorem truthyS_of_ne {x : String} (h : x ≠ "") : truthyS (some x) = true := by
  cases x with
  | mk d =>
    cases d with
    | nil => exact absurd rfl h
    | cons a l => rfl

/-- Claim C1, counterexample: with declared MIME `text/rtf` (present, but with
no registry extension) and `%PDF` content, the sniffing step does not leave
the declared MIME unchanged: the returned MIME is the sniffed
`application/pdf`, not the declared `text/rtf`. -/
theorem C1_counterexample :
    detect_content_type env0 (some pdfBytes)
      (some [("content-type", "text/rtf")]) none 8192 ⟨0, []⟩ =
      (.ok ("application/pdf", ".pdf"), ⟨0, []⟩)
    ∧ ("application/pdf" : String) ≠ "text/rtf" :=
  ⟨rfl, by decide⟩

/-- Claim C1 (corrected): when the declared MIME is present but its extension
is unknown when the sniffing step runs and a sniffing heuristic matches, the
step fills in BOTH components: the returned pair is exactly the sniffed
`(mime, extension)`, so the declared MIME is overwritten by the sniffed MIME
rather than left unchanged. -/
theorem C1_sniff_overwrites (env : SysEnv) (content : List Nat)
    (hdrs : List (String × String)) (v m e : String) (sample_size : Nat)
    (s s2 : FsState)
    (hv : hdrLookup hdrs = some v) (hvne : v ≠ "")
    (hmap : mapGet MIME_TYPE_MAPPINGS (pyLower (beforeChar ';' v)) = none)
    (hc : content ≠ [])
    (hsn : sniffStep env (content.take sample_size) s = (.ok (some (m, e)), s2)) :
    detect_content_type env (some content) (some hdrs) none sample_size s =
      (.ok (m, e), s2) := by
  have hne := sniffStep_ok_some hsn
  have htm := truthyS_of_ne hne.1
  have hte := truthyS_of_ne hne.2.1
  have hhne : hdrs ≠ [] := by
    intro hh
    rw [hh] at hv
    simp [hdrLookup] at hv
  have hdne : hdrs.isEmpty = false := by
    cases hdrs with
    | nil => exact absurd rfl hhne
    | cons a l => rfl
  have hvd : v.data.isEmpty = false := by
    cases v with
    | mk d =>
      cases d with
      | nil => exact absurd rfl hvne
      | cons a l => rfl
  have h1 : headerStep (some hdrs) = (some (pyLower (beforeChar ';' v)), none) := by
    simp [headerStep, truthyH, hdne, hv, hvd, hmap]
  have hcd : content.isEmpty = false := by
    cases content with
    | nil => exact absurd rfl hc
    | cons a l => rfl
  simp only [detect_content_type, h1]
  simp only [urlStep, truthyS, Bool.and_false, Bool.false_and, if_neg]
  simp [truthyB, hcd, hsn, crossFill, defaultFill, htm, hte]

/-- Witness for the corrected C1 theorem at a concrete input: declared MIME
`text/rtf`, content `%PDF-1.4`, sniffed pair `(application/pdf, .pdf)`. -/
theorem C1_sniff_overwrites_witness :
    hdrLookup [("content-type", "text/rtf")] = some "text/rtf"
    ∧ ("text/rtf" : String) ≠ ""
    ∧ mapGet MIME_TYPE_MAPPINGS (pyLower (beforeChar ';' "text/rtf")) = none
    ∧ pdfBytes ≠ []
    ∧ sniffStep env0 (pdfBytes.take 8192) ⟨0, []⟩ =
        (.ok (some ("application/pdf", ".pdf")), ⟨0, []⟩)
    ∧ detect_content_type env0 (some pdfBytes)
        (some [("content-type", "text/rtf")]) none 8192 ⟨0, []⟩ =
        (.ok ("application/pdf", ".pdf"), ⟨0, []⟩) :=
  ⟨rfl, by decide, by decide, by decide, rfl,
   C1_sniff_overwrites env0 pdfBytes [("content-type", "text/rtf")]
     "text/rtf" "application/pdf" ".pdf" 8192 ⟨0, []⟩ ⟨0, []⟩
     rfl (by decide) (by decide) (by decide) rfl⟩

/-- Claim C2, counterexample: for the `PK`-prefixed stream `PK,,,` (not a
recognized Office ZIP), the ZIP step indeed yields no match and no error, but
the textual heuristics are NOT then tried: they would classify the decoded
sample as CSV, yet the resolver returns the opaque default, showing the text
step never ran. -/
theorem C2_counterexample :
    sniffStep env0 pkBytes ⟨0, []⟩ = (.ok none, ⟨1, []⟩)
    ∧ textSniff env0 pkBytes = some ("text/csv", ".csv")
    ∧ detect_content_type env0 (some pkBytes) none none 8192 ⟨0, []⟩ =
        (.ok ("application/octet-stream", ""), ⟨1, []⟩) :=
  ⟨rfl, rfl, rfl⟩

/-- Claim C2 (corrected): the heuristics are ordered with the first match
winning, and for every `PK`-prefixed byte stream that is not a recognized
Office ZIP the ZIP step yields no match (not an error) — but the textual
heuristics are NOT then tried: the sniffer returns no match outright (the
textual checks run only on content that is not `PK`-prefixed). -/
theorem C2_pk_no_text_heuristics (env : SysEnv) (sample : List Nat) (s : FsState)
    (hpk : [0x50, 0x4B].isPrefixOf sample = true)
    (hz : env.zipNamelist sample = .badZip
        ∨ ∃ ns, env.zipNamelist sample = .names ns
            ∧ ns.any (fun n => strStarts n "word/") = false
            ∧ ns.any (fun n => strStarts n "xl/") = false
            ∧ ns.any (fun n => strStarts n "ppt/") = false) :
    sniffStep env sample s = (.ok none, ⟨s.nextId + 1, s.live⟩) := by
  rcases sample with _ | ⟨a, _ | ⟨b, t2⟩⟩
  · simp [List.isPrefixOf] at hpk
  · simp [List.isPrefixOf] at hpk
  · simp [List.isPrefixOf] at hpk
    obtain ⟨ha, hb⟩ := hpk
    subst ha
    subst hb
    have htake : (80 :: 75 :: t2 : List Nat).take 8 = 80 :: 75 :: t2.take 6 := rfl
    rcases hz with hbz | ⟨ns, hns, hw, hx, hp⟩
    · simp [sniffStep, htake, List.isPrefixOf, hbz, createTemp, removeTemp]
    · simp [sniffStep, htake, List.isPrefixOf, hns, hw, hx, hp, createTemp, removeTemp]

/-- Witness for the corrected C2 theorem at a concrete input: the stream
`PK,,,` with a zip library reporting a corrupt archive. -/
theorem C2_pk_no_text_heuristics_witness :
    [0x50, 0x4B].isPrefixOf pkBytes = true
    ∧ env0.zipNamelist pkBytes = .badZip
    ∧ sniffStep env0 pkBytes ⟨0, []⟩ = (.ok none, ⟨0 + 1, []⟩) :=
  ⟨by decide, rfl,
   C2_pk_no_text_heuristics env0 pkBytes ⟨0, []⟩ (by decide) (Or.inl rfl)⟩

/-- Witness for C8 at a concrete input: `%PDF` content with no headers or URL
resolves to `(application/pdf, .pdf)`, which satisfies the invariant. -/
theorem C8_resolved_invariant_witness :
    detect_content_type env0 (some pdfBytes) none none 8192 ⟨0, []⟩ =
      (.ok ("application/pdf", ".pdf"), ⟨0, []⟩)
    ∧ (("application/pdf", ".pdf") : String × String).1 ≠ ""
    ∧ ((("application/pdf", ".pdf") : String × String).2 = ""
        ∨ supportedHas (("application/pdf", ".pdf") : String × String).2 = true) :=
  ⟨rfl,
   (C8_resolved_invariant env0 (some pdfBytes) none none 8192 ⟨0, []⟩ rfl).1,
   (C8_resolved_invariant env0 (some pdfBytes) none none 8192 ⟨0, []⟩ rfl).2⟩

theorem htmlExtract_method {env : SysEnv} {content : List Nat}
    {rm : String × String} (h : htmlExtract env content = .ok rm) :
    rm.2 = "trafilatura" ∨ rm.2 = "readability" := by
  obtain ⟨r, m⟩ := rm
  simp only [htmlExtract] at h
  split at h
  · simp at h
  · split at h
    · simp at h
    · split at h
      · simp at h
        left
        exact h.2.symm
      · split at h
        · simp at h
        · split at h
          · simp at h
          · split at h
            · simp at h
            · simp at h
              right
              exact h.2.symm

/-- Claim C3 (confirmed): every successful `convert` call records one of
exactly three conversion methods. In the code these are the strings
`trafilatura` (the spec's structured-extraction), `readability` (the spec's
readability-fallback) and `markitdown` (the spec's generic-document). -/
theorem C3_method_values (env : SysEnv) (content : List Nat) (ct ext : String)
    (s : FsState) {out : Outcome} {s2 : FsState}
    (h : convert env content ct ext s = (.ok out, s2)) :
    out.conversion_method = "trafilatura"
    ∨ out.conversion_method = "readability"
    ∨ out.conversion_method = "markitdown" := by
  simp only [convert] at h
  split at h
  · rcases hhe : htmlExtract env content with e | rm <;> rw [hhe] at h
    · simp at h
    · simp at h
      rw [← h.1]
      rcases htmlExtract_method hhe with hm | hm
      · left; exact hm
      · right; left; exact hm
  · split at h
    · simp at h
    · rcases hmd : env.mdConvert content ext with e | txt <;> rw [hmd] at h
      · simp at h
      · simp at h
        rw [← h.1]
        right; right; rfl

/-- Witness for C3 at a concrete input: a generic `.pdf` conversion records
the method `markitdown`. -/
theorem C3_method_values_witness :
    convert env0 pdfBytes "application/pdf" ".pdf" ⟨0, []⟩ =
      (.ok ⟨"MD", "application/pdf", 8, "markitdown"⟩, ⟨1, []⟩)
    ∧ ((Outcome.mk "MD" "application/pdf" 8 "markitdown").conversion_method = "trafilatura"
       ∨ (Outcome.mk "MD" "application/pdf" 8 "markitdown").conversion_method = "readability"
       ∨ (Outcome.mk "MD" "application/pdf" 8 "markitdown").conversion_method = "markitdown") :=
  ⟨rfl, C3_method_values env0 pdfBytes "application/pdf" ".pdf" ⟨0, []⟩ rfl⟩

/-- Claim C4 (confirmed): when the resolved content type does not match HTML
and the resolved extension is empty or unsupported, `convert` fails with the
client error 400 `Unsupported or invalid file format` without attempting any
converter (the file-system state is untouched). -/
theorem C4_unsupported_rejected (env : SysEnv) (content : List Nat)
    (ct ext : String) (s : FsState)
    (h1 : strStarts ct "text/html" = false)
    (h2 : ext = "" ∨ is_supported_filetype ext = false) :
    convert env content ct ext s =
      (.error (400, "Unsupported or invalid file format: " ++ ct), s) := by
  rcases h2 with h2 | h2
  · subst h2
    simp [convert, h1]
  · simp [convert, h1, h2]

/-- Witness for C4 at a concrete input: resolved extension `.exe` with a
non-HTML MIME is rejected with a 400. -/
theorem C4_unsupported_rejected_witness :
    strStarts "application/octet-stream" "text/html" = false
    ∧ is_supported_filetype ".exe" = false
    ∧ convert env0 pkBytes "application/octet-stream" ".exe" ⟨0, []⟩ =
        (.error (400, "Unsupported or invalid file format: " ++ "application/octet-stream"),
         ⟨0, []⟩) :=
  ⟨by decide, by decide,
   C4_unsupported_rejected env0 pkBytes "application/octet-stream" ".exe" ⟨0, []⟩
     (by decide) (Or.inr (by decide))⟩

theorem strDataAppend (a b : String) : (a ++ b).data = a.data ++ b.data := by
  cases a
  cases b
  rfl

/-- Claim C5 (confirmed): on the HTML branch, a truthy trafilatura result is
used with method `trafilatura` (structured extraction); a falsy one triggers
the readability fallback with method `readability`, and the final Markdown
begins with `# title` whenever the extracted title is non-empty. -/
theorem C5_html_branch (env : SysEnv) (content : List Nat) (ct ext : String)
    (s : FsState) (hct : strStarts ct "text/html" = true) :
    (∀ txt r, env.pyDecode "utf-8" content = .ok txt →
      env.trafExtract txt = .ok r → truthyS r = true →
      convert env content ct ext s =
        (.ok ⟨r.getD "", ct, content.length, "trafilatura"⟩, s))
    ∧ (∀ txt r txt2 ta md, env.pyDecode "utf-8" content = .ok txt →
      env.trafExtract txt = .ok r → truthyS r = false →
      env.pyDecode (if truthyS (env.chardetEnc content) then
          (env.chardetEnc content).getD "" else "utf-8") content = .ok txt2 →
      env.readability txt2 = .ok ta →
      env.h2tHandle ta.2 = .ok md →
      convert env content ct ext s =
        (.ok ⟨(if ta.1.data.isEmpty then "" else "# " ++ ta.1 ++ "\n\n") ++ md,
              ct, content.length, "readability"⟩, s)
      ∧ (ta.1 ≠ "" →
          strStarts ((if ta.1.data.isEmpty then "" else "# " ++ ta.1 ++ "\n\n") ++ md)
            ("# " ++ ta.1) = true)) := by
  constructor
  · intro txt r hd ht hr
    simp [convert, hct, htmlExtract, hd, ht, hr]
  · intro txt r txt2 ta md hd ht hr hd2 hrd hh
    obtain ⟨ttl, tart⟩ := ta
    constructor
    · simp [convert, hct, htmlExtract, hd, ht, hr, hd2, hrd, hh]
    · intro hta
      have hne : ttl.data.isEmpty = false := by
        cases ttl with
        | mk d =>
          cases d with
          | nil => exact absurd rfl hta
          | cons a l => rfl
      simp only [hne, Bool.false_eq_true, if_false]
      simp only [strStarts]
      rw [List.isPrefixOf_iff_prefix]
      refine ⟨"\n\n".data ++ md.data, ?_⟩
      simp [strDataAppend]

/-- Claim C6 (confirmed): on the HTML branch, any failure inside either
extraction stage (including decoding the bytes) surfaces as the single 500
error `Failed to extract web content` carrying the underlying cause, and a
successful outcome is exactly a successful run of the extraction stages —
never a partial result of a failed stage. -/
theorem C6_extraction_failed (env : SysEnv) (content : List Nat)
    (ct ext : String) (s : FsState) (hct : strStarts ct "text/html" = true) :
    (∀ e, htmlExtract env content = .error e →
      convert env content ct ext s =
        (.error (500, "Failed to extract web content: " ++ e), s))
    ∧ (∀ out s2, convert env content ct ext s = (.ok out, s2) →
      htmlExtract env content = .ok (out.result, out.conversion_method) ∧ s2 = s) := by
  constructor
  · intro e he
    simp [convert, hct, he]
  · intro out s2 h
    simp only [convert, hct, if_true] at h
    rcases hhe : htmlExtract env content with e2 | rm <;> rw [hhe] at h <;> simp at h
    obtain ⟨h1, h2⟩ := h
    subst h1
    subst h2
    simp

/-- Claim C9 (confirmed): `is_supported_filetype` accepts every supported
extension, in any character case and with or without the leading dot (a case
variant of `E` is any string whose ASCII lowercase form is `E`, or `E` with
its leading dot removed). -/
theorem C9_supported_variants (E : String) (hE : supportedHas E = true)
    (s : String) (hs : pyLower s = E ∨ pyLower s = lstripDots E) :
    is_supported_filetype s = true := by
  have hmem : E ∈ supportedExtensions := by
    simpa [supportedHas] using hE
  have key : ∀ e ∈ supportedExtensions,
      (supportedExtensions.map lstripDots).contains (lstripDots (pyStrip e)) = true
      ∧ (supportedExtensions.map lstripDots).contains
          (lstripDots (pyStrip (lstripDots e))) = true := by decide
  rcases hs with hs | hs
  · unfold is_supported_filetype
    rw [hs]
    exact (key E hmem).1
  · unfold is_supported_filetype
    rw [hs]
    exact (key E hmem).2

/-- Witness for C9 at a concrete input: `HTML` is accepted because its
lowercase form is `.html` without the dot. -/
theorem C9_supported_variants_witness :
    supportedHas ".html" = true
    ∧ (pyLower "HTML" = ".html" ∨ pyLower "HTML" = lstripDots ".html")
    ∧ is_supported_filetype "HTML" = true :=
  ⟨by decide, Or.inr (by decide),
   C9_supported_variants ".html" (by decide) "HTML" (Or.inr (by decide))⟩

/-- Claim C10 (confirmed): `convert` selects the HTML extraction branch iff
the resolved MIME starts with `text/html` (observable through the recorded
method: HTML methods on the HTML branch, `markitdown` otherwise); a header
declaring `application/xhtml+xml` resolves to MIME `application/xhtml+xml`
with extension `.html`, and that MIME does not start with `text/html`, so
such input takes the generic-document branch. -/
theorem C10_branch_selection :
    (∀ (env : SysEnv) (content : List Nat) (ct ext : String) (s : FsState)
        (out : Outcome) (s2 : FsState),
      convert env content ct ext s = (.ok out, s2) →
        (strStarts ct "text/html" = true →
          out.conversion_method = "trafilatura" ∨ out.conversion_method = "readability")
        ∧ (strStarts ct "text/html" = false → out.conversion_method = "markitdown"))
    ∧ (∀ (env : SysEnv) (content : Option (List Nat)) (sample_size : Nat) (s : FsState),
      detect_content_type env content (some [("content-type", "application/xhtml+xml")])
          none sample_size s =
        (.ok ("application/xhtml+xml", ".html"), s))
    ∧ strStarts "application/xhtml+xml" "text/html" = false := by
  refine ⟨?_, ?_, by decide⟩
  · intro env content ct ext s out s2 h
    constructor
    · intro hct
      simp only [convert, hct, if_true] at h
      rcases hhe : htmlExtract env content with e | rm <;> rw [hhe] at h <;> simp at h
      rw [← h.1]
      simpa using htmlExtract_method hhe
    · intro hct
      simp only [convert, hct, Bool.false_eq_true, if_false] at h
      split at h
      · simp at h
      · rcases hmd : env.mdConvert content ext with e | txt <;> rw [hmd] at h <;> simp at h
        rw [← h.1]
  · intro env content ss s
    have h1 : headerStep (some [("content-type", "application/xhtml+xml")]) =
        (some "application/xhtml+xml", some ".html") := rfl
    have ht1 : truthyS (some ".html") = true := by decide
    have ht2 : truthyS (some "application/xhtml+xml") = true := by decide
    simp only [detect_content_type, h1]
    simp [urlStep, truthyS, crossFill, defaultFill, ht1, ht2]

/-- Variant of `env0` whose structured extractor returns a non-empty result. -/
def envTraf : SysEnv := { env0 with trafExtract := fun _ => .ok (some "X") }

/-- Variant of `env0` whose readability stage yields a title and a body. -/
def envR : SysEnv :=
  { env0 with
    readability := fun _ => .ok ("Title", "ART")
    h2tHandle := fun _ => .ok "BODY" }

/-- Variant of `env0` whose structured extractor raises an exception. -/
def envErr : SysEnv := { env0 with trafExtract := fun _ => .error "boom" }

/-- Witness for C5 at concrete inputs: a truthy trafilatura result is used
with method `trafilatura`; a falsy one falls back to readability, whose
output carries the title as a leading heading. -/
theorem C5_html_branch_witness :
    convert envTraf pkBytes "text/html" "" ⟨0, []⟩ =
      (.ok ⟨"X", "text/html", 5, "trafilatura"⟩, ⟨0, []⟩)
    ∧ convert envR pkBytes "text/html" "" ⟨0, []⟩ =
      (.ok ⟨"# Title\n\nBODY", "text/html", 5, "readability"⟩, ⟨0, []⟩)
    ∧ strStarts "# Title\n\nBODY" ("# " ++ "Title") = true :=
  ⟨(C5_html_branch envTraf pkBytes "text/html" "" ⟨0, []⟩ (by decide)).1
     "PK,,," (some "X") rfl rfl (by decide),
   ((C5_html_branch envR pkBytes "text/html" "" ⟨0, []⟩ (by decide)).2
     "PK,,," none "PK,,," ("Title", "ART") "BODY" rfl rfl rfl rfl rfl rfl).1,
   ((C5_html_branch envR pkBytes "text/html" "" ⟨0, []⟩ (by decide)).2
     "PK,,," none "PK,,," ("Title", "ART") "BODY" rfl rfl rfl rfl rfl rfl).2
     (by decide)⟩

/-- Witness for C6 at a concrete input: a raising structured extractor is
surfaced as the single 500 `Failed to extract web content` error. -/
theorem C6_extraction_failed_witness :
    strStarts "text/html" "text/html" = true
    ∧ htmlExtract envErr pkBytes = .error "boom"
    ∧ convert envErr pkBytes "text/html" "" ⟨0, []⟩ =
        (.error (500, "Failed to extract web content: " ++ "boom"), ⟨0, []⟩) :=
  ⟨by decide, rfl,
   (C6_extraction_failed envErr pkBytes "text/html" "" ⟨0, []⟩ (by decide)).1 "boom" rfl⟩

/-- Witness for C10 at a concrete input: a header-declared
`application/xhtml+xml` resolves to `(application/xhtml+xml, .html)` and is
converted on the generic-document branch (method `markitdown`). -/
theorem C10_branch_selection_witness :
    convert env0 pdfBytes "application/xhtml+xml" ".html" ⟨0, []⟩ =
      (.ok ⟨"MD", "application/xhtml+xml", 8, "markitdown"⟩, ⟨1, []⟩)
    ∧ (Outcome.mk "MD" "application/xhtml+xml" 8 "markitdown").conversion_method =
        "markitdown"
    ∧ detect_content_type env0 (some pdfBytes)
        (some [("content-type", "application/xhtml+xml")]) none 8192 ⟨0, []⟩ =
        (.ok ("application/xhtml+xml", ".html"), ⟨0, []⟩) :=
  ⟨rfl,
   (C10_branch_selection.1 env0 pdfBytes "application/xhtml+xml" ".html" ⟨0, []⟩
     ⟨"MD", "application/xhtml+xml", 8, "markitdown"⟩ ⟨1, []⟩ rfl).2 (by decide),
   C10_branch_selection.2.1 env0 (some pdfBytes) 8192 ⟨0, []⟩⟩
